import Mathlib

/-!
Verification of the SubFlix backend core (`backend/server.py`): the
Scanner/Matcher heuristic, the job-manager state machine, and the encoder
invoker, shallowly embedded in Lean.  Python strings are modelled by `String`
via their character lists; `os.path` helpers are translated from CPython's
posixpath semantics; the Mongo document store is modelled as explicit lists of
records, with each `update_one`/`insert_one` an explicit state transition.
-/

namespace Subflix

/-! ## Python string helpers -/

/-- Python `file.lower()`, ASCII-adequate model via `Char.toLower`. -/
def pyLower (s : String) : String := ⟨s.data.map Char.toLower⟩

/-- Python `s.endswith(suf)`. -/
def pyEndsWith (s suf : String) : Bool := suf.data.isSuffixOf s.data

/-- Python `s.startswith(pre)`. -/
def pyStartsWith (s pre : String) : Bool := pre.data.isPrefixOf s.data

/-- Substring containment on character lists: `needle` occurs contiguously in
`hay` (Python's `needle in hay`). -/
def containsSub (needle : List Char) : List Char → Bool
  | [] => needle.isEmpty
  | c :: rest => needle.isPrefixOf (c :: rest) || containsSub needle rest

/-- Python's `needle in hay` for strings. -/
def pyIn (needle hay : String) : Bool := containsSub needle.data hay.data

/-- Index of the last occurrence of `c` in `l` (Python `str.rfind`, as an
`Option` instead of `-1`). -/
def lastIdx (c : Char) (l : List Char) : Option Nat :=
  match l.reverse.findIdx? (· == c) with
  | some k => some (l.length - 1 - k)
  | none => none

/-- Model of `os.path.splitext` (CPython `genericpath._splitext` with `sep = '/'`,
`extsep = '.'`): split at the last dot that lies after the last slash,
unless every character between them is a dot (leading-dot files keep their
name whole). -/
def pySplitext (p : String) : String × String :=
  let l := p.data
  let sepIndex : Int := match lastIdx '/' l with | some i => (i : Int) | none => -1
  let dotIndex : Int := match lastIdx '.' l with | some i => (i : Int) | none => -1
  if sepIndex < dotIndex then
    let between := (l.take dotIndex.toNat).drop (sepIndex + 1).toNat
    if between.any (fun ch => ch ≠ '.') then
      (⟨l.take dotIndex.toNat⟩, ⟨l.drop dotIndex.toNat⟩)
    else (p, "")
  else (p, "")

/-- Model of `os.path.join(a, b)` for POSIX paths, two arguments. -/
def pyJoin (a b : String) : String :=
  if pyStartsWith b "/" then b
  else if a == "" || pyEndsWith a "/" then a ++ b
  else a ++ "/" ++ b

/-- Model of `os.path.dirname(p)` for POSIX paths. -/
def pyDirname (p : String) : String :=
  match lastIdx '/' p.data with
  | none => ""
  | some i =>
    let head := p.data.take (i + 1)
    if head.all (fun ch => ch == '/') then ⟨head⟩
    else ⟨(head.reverse.dropWhile (fun ch => ch == '/')).reverse⟩

/-- Model of `os.path.basename(p)` for POSIX paths. -/
def pyBasename (p : String) : String :=
  match lastIdx '/' p.data with
  | none => p
  | some i => ⟨p.data.drop (i + 1)⟩

/-- Python `pattern.replace(".", "")`: remove every dot. -/
def dropDots (s : String) : String := ⟨s.data.filter (fun ch => ch ≠ '.')⟩

/-! ## Matcher (`find_subtitle_for_video`) -/

/-- Default `subtitle_extensions` argument of `find_subtitle_for_video`. -/
def subtitle_extensions : List String := [".srt", ".vtt", ".sub"]

/-- The `language_patterns` list of `find_subtitle_for_video`. -/
def language_patterns : List String := [".ar", ".en", ".ara", ".eng"]

/-- The dictionary `find_subtitle_for_video` returns on a match. -/
structure SubtitleMatch where
  path : String
  language : String
deriving DecidableEq, Repr

/-- The inner `for lang_pattern in language_patterns` loop: first pattern that
occurs as a substring of the (lowered) candidate base name, with its dots
stripped. -/
def langSearch : List String → String → Option String
  | [], _ => none
  | p :: ps, name => if pyIn p name then some (dropDots p) else langSearch ps name

/-- Loop of `find_subtitle_for_video` over `os.listdir(video_dir)`,
with the directory listing made explicit. -/
def findSubtitleLoop (video_dir video_name : String) : List String → Option SubtitleMatch
  | [] => none
  | file :: rest =>
    if subtitle_extensions.any (fun ext => pyEndsWith (pyLower file) ext) then
      let subtitle_name := (pySplitext file).1
      if pyStartsWith subtitle_name video_name then
        match langSearch language_patterns (pyLower subtitle_name) with
        | some lang => some ⟨pyJoin video_dir file, lang⟩
        | none => some ⟨pyJoin video_dir file, "unknown"⟩
      else findSubtitleLoop video_dir video_name rest
    else findSubtitleLoop video_dir video_name rest

/-- Model of `find_subtitle_for_video(video_path)`, the directory listing of the
video's directory passed explicitly (its order is OS-chosen). -/
def find_subtitle_for_video (video_path : String) (listing : List String) :
    Option SubtitleMatch :=
  findSubtitleLoop (pyDirname video_path) (pySplitext (pyBasename video_path)).1 listing

/-- A sibling file is a candidate when it carries a subtitle extension and its
base name starts with the video's base name — the two guards of the listing
loop. -/
def isCandidate (video_name file : String) : Bool :=
  (subtitle_extensions.any (fun ext => pyEndsWith (pyLower file) ext)) &&
    pyStartsWith (pySplitext file).1 video_name

/-- The language the matcher records for one candidate file. -/
def candidateLang (file : String) : String :=
  (langSearch language_patterns (pyLower (pySplitext file).1)).getD "unknown"

/-! ## Data model

Record identifiers are opaque unique strings in the source (`uuid.uuid4()`);
they are modelled as natural numbers drawn from a counter, which preserves
uniqueness and opacity.  UTC timestamps are modelled as naturals supplied by
the caller (`datetime.now`). -/

/-- The `VideoFile` pydantic model. -/
structure VideoFile where
  id : Nat
  file_path : String
  file_name : String
  file_size : Nat
  subtitle_path : Option String := none
  subtitle_language : Option String := none
  content_type : String
  status : String := "pending"
  created_at : Nat := 0
deriving DecidableEq, Repr

/-- The `ProcessingJob` pydantic model. -/
structure ProcessingJob where
  id : Nat
  video_file_id : Nat
  input_video_path : String
  input_subtitle_path : String
  output_path : String
  status : String := "queued"
  progress : Nat := 0
  error_message : Option String := none
  started_at : Option Nat := none
  completed_at : Option Nat := none
  created_at : Nat := 0
deriving DecidableEq, Repr

/-- The document store (`db.video_files`, `db.processing_jobs`), as lists of
records in insertion order. -/
structure Store where
  video_files : List VideoFile
  processing_jobs : List ProcessingJob
deriving DecidableEq, Repr

/-- One `$set` document of a `db.processing_jobs.update_one` call: the fields
it sets, absent fields left alone. -/
structure JobSet where
  status : Option String := none
  progress : Option Nat := none
  started_at : Option Nat := none
  completed_at : Option Nat := none
  error_message : Option String := none
deriving DecidableEq, Repr

/-- Applying a `$set` document to a job record. -/
def applyJobSet (u : JobSet) (j : ProcessingJob) : ProcessingJob :=
  { j with
    status := u.status.getD j.status
    progress := u.progress.getD j.progress
    started_at := match u.started_at with | some t => some t | none => j.started_at
    completed_at := match u.completed_at with | some t => some t | none => j.completed_at
    error_message := match u.error_message with | some m => some m | none => j.error_message }

/-- Mongo `update_one`: rewrite the first record matching the filter. -/
def updateFirst {α : Type} (p : α → Bool) (f : α → α) : List α → List α
  | [] => []
  | x :: xs => if p x then f x :: xs else x :: updateFirst p f xs

/-- Model of `db.processing_jobs.update_one({"id": jobId}, {"$set": u})`. -/
def Store.updateJob (s : Store) (jobId : Nat) (u : JobSet) : Store :=
  { s with processing_jobs :=
      updateFirst (fun j => j.id == jobId) (applyJobSet u) s.processing_jobs }

/-- Model of `db.video_files.update_one({"id": videoId}, {"$set": {"status": st}})`. -/
def Store.updateVideoStatus (s : Store) (videoId : Nat) (st : String) : Store :=
  { s with video_files :=
      updateFirst (fun v => v.id == videoId) (fun v => { v with status := st }) s.video_files }

/-- Model of `db.processing_jobs.find_one({"id": jobId})`. -/
def Store.findJob (s : Store) (jobId : Nat) : Option ProcessingJob :=
  s.processing_jobs.find? (fun j => j.id == jobId)

/-- Model of `db.video_files.find_one({"id": videoId})`. -/
def Store.findVideo (s : Store) (videoId : Nat) : Option VideoFile :=
  s.video_files.find? (fun v => v.id == videoId)

/-- One store write, as recorded in an update trace. -/
inductive StoreOp where
  | jobUpdate (jobId : Nat) (fields : JobSet)
  | videoStatusUpdate (videoId : Nat) (status : String)
deriving DecidableEq, Repr

/-! ## Encoder invoker (`embed_subtitles`) -/

/-- The FFmpeg argument vector built by `embed_subtitles`. -/
def ffmpegCmd (input_video input_subtitle output_path : String) : List String :=
  ["ffmpeg", "-y",
   "-i", input_video,
   "-i", input_subtitle,
   "-c", "copy",
   "-c:s", "srt",
   "-map", "0",
   "-map", "1",
   output_path]

/-- Outcome of the external process (`process.returncode`, decoded stderr). -/
structure EmbedOutcome where
  returncode : Int
  stderrText : String
deriving DecidableEq, Repr

/-- What one `embed_subtitles` call did: the final store, the ordered trace of
store writes it issued, the command vector it ran, and its return value. -/
structure EmbedResult where
  store : Store
  trace : List StoreOp
  cmd : List String
  ok : Bool
deriving DecidableEq, Repr

/-- First job update of `embed_subtitles` (dispatch milestone). -/
def jobStartSet (t : Nat) : JobSet :=
  { status := some "processing", started_at := some t, progress := some 10 }

/-- Second job update of `embed_subtitles` (pre-spawn milestone). -/
def jobMidSet : JobSet := { progress := some 30 }

/-- Terminal-success job update of `embed_subtitles`. -/
def jobDoneSet (t : Nat) : JobSet :=
  { status := some "completed", progress := some 100, completed_at := some t }

/-- Terminal-failure job update of `embed_subtitles`. -/
def jobFailSet (msg : String) (t : Nat) : JobSet :=
  { status := some "failed", error_message := some msg, completed_at := some t }

/-- Model of `embed_subtitles`: the non-exception path, parameterised by the
external process's outcome and the two wall-clock instants `datetime.now`
returns.  The filesystem side effect (`os.makedirs`) does not touch the store
and is not modelled. -/
def embed_subtitles (input_video input_subtitle output_path : String) (job_id : Nat)
    (outcome : EmbedOutcome) (t_start t_end : Nat) (s : Store) : EmbedResult :=
  let s1 := s.updateJob job_id (jobStartSet t_start)
  let cmd := ffmpegCmd input_video input_subtitle output_path
  let s2 := s1.updateJob job_id jobMidSet
  if outcome.returncode == 0 then
    let s3 := s2.updateJob job_id (jobDoneSet t_end)
    match s3.findJob job_id with
    | some job_data =>
      let s4 := s3.updateVideoStatus job_data.video_file_id "completed"
      ⟨s4,
       [StoreOp.jobUpdate job_id (jobStartSet t_start), StoreOp.jobUpdate job_id jobMidSet,
        StoreOp.jobUpdate job_id (jobDoneSet t_end),
        StoreOp.videoStatusUpdate job_data.video_file_id "completed"],
       cmd, true⟩
    | none =>
      ⟨s3,
       [StoreOp.jobUpdate job_id (jobStartSet t_start), StoreOp.jobUpdate job_id jobMidSet,
        StoreOp.jobUpdate job_id (jobDoneSet t_end)],
       cmd, true⟩
  else
    let error_msg := if outcome.stderrText == "" then "Unknown error" else outcome.stderrText
    let s3 := s2.updateJob job_id (jobFailSet error_msg t_end)
    ⟨s3,
     [StoreOp.jobUpdate job_id (jobStartSet t_start), StoreOp.jobUpdate job_id jobMidSet,
      StoreOp.jobUpdate job_id (jobFailSet error_msg t_end)],
     cmd, false⟩

/-! ## Job creation (`process_video`) and settings -/

/-- The output/source directory settings the core reads (the CDN fields are
out of scope). -/
structure Settings where
  movies_source_path : String := ""
  movies_output_path : String := ""
  tvshows_source_path : String := ""
  tvshows_output_path : String := ""
deriving DecidableEq, Repr

/-- Error taxonomy of the request handlers (spec section 7). -/
inductive ApiError where
  | notFound
  | noSubtitleAvailable
  | notConfigured
  | invalidContentType
deriving DecidableEq, Repr

/-- Python truthiness of an optional string (`if not x`). -/
def pyTruthyOptStr : Option String → Bool
  | none => false
  | some s => !(s == "")

/-- Model of the `process_video` route handler.  `settings` is the newest
settings document (or none), `new_job_id` the uuid the new job draws, `now`
its creation instant.  The background task (`embed_subtitles`) is dispatched
after the handler returns and is modelled separately. -/
def process_video (video_file_id : Nat) (settings : Option Settings)
    (new_job_id : Nat) (now : Nat) (s : Store) : Store × Except ApiError Nat :=
  match s.findVideo video_file_id with
  | none => (s, Except.error ApiError.notFound)
  | some video_file =>
    if !(pyTruthyOptStr video_file.subtitle_path) then
      (s, Except.error ApiError.noSubtitleAvailable)
    else
      match settings with
      | none => (s, Except.error ApiError.notConfigured)
      | some st =>
        let output_base :=
          if video_file.content_type == "movies" then st.movies_output_path
          else st.tvshows_output_path
        if output_base == "" then (s, Except.error ApiError.notConfigured)
        else
          let input_name := (pySplitext video_file.file_name).1
          let input_ext := (pySplitext video_file.file_name).2
          let output_filename :=
            input_name ++ "." ++ (video_file.subtitle_language.getD "None") ++ input_ext
          let output_path := pyJoin output_base output_filename
          let job : ProcessingJob :=
            { id := new_job_id
              video_file_id := video_file_id
              input_video_path := video_file.file_path
              input_subtitle_path := video_file.subtitle_path.getD ""
              output_path := output_path
              created_at := now }
          let s1 : Store := { s with processing_jobs := s.processing_jobs ++ [job] }
          let s2 := s1.updateVideoStatus video_file_id "processing"
          (s2, Except.ok new_job_id)

/-! ## Filesystem model and scanner (`find_video_files`, `scan_folders`) -/

mutual
/-- A directory: its regular files (name, size in bytes) and subdirectories. -/
inductive FsTree where
  | node (files : List (String × Nat)) (subdirs : FsForest)
/-- A list of named subdirectories. -/
inductive FsForest where
  | nil
  | cons (name : String) (tree : FsTree) (rest : FsForest)
end

/-- Names of the subdirectories of a directory node. -/
def FsForest.names : FsForest → List String
  | .nil => []
  | .cons name _ rest => name :: FsForest.names rest

mutual
/-- Model of `os.walk(path)` top-down: one `(root, dirs, files)` triple per
directory of the tree. -/
def FsTree.walk (path : String) : FsTree → List (String × List String × List (String × Nat))
  | .node files subdirs => (path, FsForest.names subdirs, files) :: FsForest.walkAll path subdirs
/-- Walk every subdirectory of a directory in order. -/
def FsForest.walkAll (path : String) : FsForest → List (String × List String × List (String × Nat))
  | .nil => []
  | .cons name t rest => FsTree.walk (pyJoin path name) t ++ FsForest.walkAll path rest
end

mutual
/-- Specification-side view of a tree: every file at every depth, with its
containing directory's path. -/
def FsTree.allFiles (path : String) : FsTree → List (String × String × Nat)
  | .node files subdirs =>
      files.map (fun fe => (path, fe.1, fe.2)) ++ FsForest.allFilesF path subdirs
/-- All files under every subdirectory of a directory. -/
def FsForest.allFilesF (path : String) : FsForest → List (String × String × Nat)
  | .nil => []
  | .cons name t rest => FsTree.allFiles (pyJoin path name) t ++ FsForest.allFilesF path rest
end

/-- Default `extensions` argument of `find_video_files`. -/
def video_extensions : List String := [".mp4", ".mkv", ".ts"]

/-- The recognition test of `find_video_files`:
`any(file.lower().endswith(ext) for ext in extensions)`. -/
def hasVideoExt (extensions : List String) (file : String) : Bool :=
  extensions.any (fun ext => pyEndsWith (pyLower file) ext)

/-- Case-insensitive suffix test, as the spec words it. -/
def endsWithCI (s suf : String) : Bool := pyEndsWith (pyLower s) (pyLower suf)

/-- One element of the list `find_video_files` returns. -/
structure FileEntry where
  file_path : String
  file_name : String
  file_size : Nat
  directory : String
deriving DecidableEq, Repr

/-- Model of `find_video_files(directory)`: `none` for the tree stands for a
directory that does not exist (`os.path.exists` false). -/
def find_video_files (root : Option FsTree) (directory : String)
    (extensions : List String) : List FileEntry :=
  match root with
  | none => []
  | some t =>
    (FsTree.walk directory t).flatMap (fun entry =>
      entry.2.2.filterMap (fun fe =>
        if hasVideoExt extensions fe.1 then
          some ⟨pyJoin entry.1 fe.1, fe.1, fe.2, entry.1⟩
        else none))

/-- Model of `os.listdir(target)` against the modelled filesystem, one valid
listing order (subdirectory names, then file names). -/
def dirListing (root : Option FsTree) (rootPath target : String) : List String :=
  match root with
  | none => []
  | some t =>
    (((FsTree.walk rootPath t).find? (fun e => e.1 == target)).map
      (fun e => e.2.1 ++ e.2.2.map Prod.fst)).getD []

/-- The `VideoFile(...)` record one iteration of the scan loop builds and
inserts: the matcher runs against the listing of the video's directory. -/
def scanRecord (root : Option FsTree) (source_path content_type : String)
    (vid now : Nat) (video_data : FileEntry) : VideoFile :=
  let subtitle_info := find_subtitle_for_video video_data.file_path
    (dirListing root source_path (pyDirname video_data.file_path))
  { id := vid
    file_path := video_data.file_path
    file_name := video_data.file_name
    file_size := video_data.file_size
    content_type := content_type
    subtitle_path := Option.map (fun m => m.path) subtitle_info
    subtitle_language := Option.map (fun m => m.language) subtitle_info
    status := "pending"
    created_at := now }

/-- The `for video_data in video_files` insertion loop of `scan_folders`,
threading the uuid counter. -/
def scanLoop (root : Option FsTree) (source_path content_type : String) (now : Nat) :
    List FileEntry → Nat → List VideoFile → List VideoFile × Nat
  | [], vid, acc => (acc, vid)
  | video_data :: rest, vid, acc =>
    scanLoop root source_path content_type now rest (vid + 1)
      (acc ++ [scanRecord root source_path content_type vid now video_data])

/-- What one `scan_folders` call did: the store afterwards, the next fresh
identifier, and the handler's response (scanned-file count or error). -/
structure ScanResult where
  store : Store
  nextId : Nat
  response : Except ApiError Nat
deriving Repr

/-- Body of `scan_folders` once the source path for the requested category
has been selected: the `if not source_path` guard, then discovery and the
insertion loop. -/
def scanWithSource (source_path content_type : String) (fs : String → Option FsTree)
    (firstId now : Nat) (s : Store) : ScanResult :=
  if source_path == "" then ⟨s, firstId, Except.error ApiError.notConfigured⟩
  else
    let root := fs source_path
    let video_files := find_video_files root source_path video_extensions
    let looped := scanLoop root source_path content_type now video_files firstId s.video_files
    ⟨{ s with video_files := looped.1 }, looped.2, Except.ok video_files.length⟩

/-- Model of the `scan_folders` route handler.  `fs` maps an existing source
path to its directory tree (`none`: path does not exist); `firstId` is the
next unused uuid, `now` the scan instant. -/
def scan_folders (settings : Option Settings) (content_type : String)
    (fs : String → Option FsTree) (firstId now : Nat) (s : Store) : ScanResult :=
  match settings with
  | none => ⟨s, firstId, Except.error ApiError.notConfigured⟩
  | some st =>
    if content_type == "movies" then
      scanWithSource st.movies_source_path content_type fs firstId now s
    else if content_type == "tvshows" then
      scanWithSource st.tvshows_source_path content_type fs firstId now s
    else ⟨s, firstId, Except.error ApiError.invalidContentType⟩

/-- Iterate `scan_folders` `n` times over the same unchanged tree, threading
the store and the uuid counter. -/
def scanTimes (settings : Option Settings) (content_type : String)
    (fs : String → Option FsTree) (now : Nat) : Nat → Store → Nat → Store × Nat
  | 0, s, vid => (s, vid)
  | n + 1, s, vid =>
    let r := scan_folders settings content_type fs vid now s
    scanTimes settings content_type fs now n r.store r.nextId

/-- The subtitle-fields invariant of a VideoFile record: `subtitle_path` is
set exactly when `subtitle_language` is. -/
def subtitleInv (v : VideoFile) : Prop :=
  v.subtitle_path.isSome = v.subtitle_language.isSome

instance (v : VideoFile) : Decidable (subtitleInv v) := by
  unfold subtitleInv
  infer_instance

/-! ## Lemmas about substring containment -/

/-- Substring containment is antitone in the needle: a needle that begins a
longer needle occurs wherever the longer one does. -/
theorem containsSub_mono {n₁ n₂ : List Char} (hp : n₁.isPrefixOf n₂ = true) :
    ∀ {h : List Char}, containsSub n₂ h = true → containsSub n₁ h = true := by
  intro h
  induction h with
  | nil =>
    intro hc
    simp only [containsSub, List.isEmpty_iff] at hc ⊢
    subst hc
    cases n₁ with
    | nil => rfl
    | cons a as => simp [List.isPrefixOf] at hp
  | cons c rest ih =>
    intro hc
    simp only [containsSub, Bool.or_eq_true] at hc ⊢
    rcases hc with hc | hc
    · refine Or.inl ?_
      rw [ List.isPrefixOf_iff_prefix] at hc ⊢
      exact List.IsPrefix.trans (( List.isPrefixOf_iff_prefix).mp hp) hc
    · exact Or.inr (ih hc)

/-- The language-pattern loop can only produce `ar` or `en`: `.ara` contains
`.ar` and `.eng` contains `.en`, and the shorter patterns are tried first. -/
theorem langSearch_patterns_cases (name : String) :
    langSearch language_patterns name = none ∨
    langSearch language_patterns name = some "ar" ∨
    langSearch language_patterns name = some "en" := by
  have har : dropDots ".ar" = "ar" := by decide
  have hen : dropDots ".en" = "en" := by decide
  by_cases h1 : pyIn ".ar" name = true
  · refine Or.inr (Or.inl ?_)
    simp [langSearch, language_patterns, h1, har]
  by_cases h2 : pyIn ".en" name = true
  · refine Or.inr (Or.inr ?_)
    simp [langSearch, language_patterns, h1, h2, hen]
  have h3 : ¬ pyIn ".ara" name = true := fun hx =>
    h1 (@containsSub_mono ".ar".data ".ara".data (by decide) name.data hx)
  have h4 : ¬ pyIn ".eng" name = true := fun hx =>
    h2 (@containsSub_mono ".en".data ".eng".data (by decide) name.data hx)
  refine Or.inl ?_
  simp [langSearch, language_patterns, h1, h2, h3, h4]

/-- Every match the listing loop produces carries language `ar`, `en` or
`unknown`. -/
theorem findSubtitleLoop_language (vd vn : String) :
    ∀ (listing : List String) (m : SubtitleMatch),
      findSubtitleLoop vd vn listing = some m →
      m.language = "ar" ∨ m.language = "en" ∨ m.language = "unknown" := by
  intro listing
  induction listing with
  | nil => intro m h; simp [findSubtitleLoop] at h
  | cons file rest ih =>
    intro m h
    by_cases hext : (subtitle_extensions.any fun ext => pyEndsWith (pyLower file) ext) = true
    · by_cases hpre : pyStartsWith (pySplitext file).1 vn = true
      · rcases langSearch_patterns_cases (pyLower (pySplitext file).1) with hl | hl | hl
        · simp [findSubtitleLoop, hext, hpre, hl] at h
          subst h
          exact Or.inr (Or.inr rfl)
        · simp [findSubtitleLoop, hext, hpre, hl] at h
          subst h
          exact Or.inl rfl
        · simp [findSubtitleLoop, hext, hpre, hl] at h
          subst h
          exact Or.inr (Or.inl rfl)
      · simp only [findSubtitleLoop, hext, if_true, hpre, if_false] at h
        exact ih m (by simpa [hpre] using h)
    · simp only [findSubtitleLoop] at h
      exact ih m (by simpa [hext] using h)

/-! ## Claim theorems: the Matcher -/

/-- Claim C1, counterexample: with siblings listed as `movie.en.srt` before
`movie.ara.srt`, the Matcher returns the `.en` file, not the `.ara` file —
the priority list is applied within the first candidate only, so the result
depends on the directory-listing order. -/
theorem matcher_priority_counterexample :
    find_subtitle_for_video "/media/movie.mkv" ["movie.en.srt", "movie.ara.srt"] =
      some { path := "/media/movie.en.srt", language := "en" } ∧
    Option.map (fun m => m.path)
        (find_subtitle_for_video "/media/movie.mkv" ["movie.en.srt", "movie.ara.srt"]) ≠
      some "/media/movie.ara.srt" := by
  decide

/-- Claim C1 as amended: the Matcher returns the first candidate in
directory-listing order — the first listed sibling with a subtitle extension
whose base name starts with the video's base name — with the tag-priority
list applied only within that candidate's own name.  The `.ara` file is
returned (with language `ar`) exactly when it is the first candidate, not for
every listing order. -/
theorem matcher_first_candidate (video_path : String) (listing : List String) (f : String)
    (hf : listing.find? (isCandidate (pySplitext (pyBasename video_path)).1) = some f) :
    find_subtitle_for_video video_path listing =
      some { path := pyJoin (pyDirname video_path) f, language := candidateLang f } := by
  unfold find_subtitle_for_video
  induction listing with
  | nil => simp [List.find?] at hf
  | cons file rest ih =>
    by_cases hc : isCandidate (pySplitext (pyBasename video_path)).1 file = true
    · rw [ List.find?_cons_of_pos _ hc] at hf
      injection hf with hf
      subst hf
      simp only [isCandidate, Bool.and_eq_true] at hc
      obtain ⟨hext, hpre⟩ := hc
      cases hl : langSearch language_patterns (pyLower (pySplitext file).1) with
      | none => simp [findSubtitleLoop, hext, hpre, hl, candidateLang]
      | some lang => simp [findSubtitleLoop, hext, hpre, hl, candidateLang]
    · rw [ List.find?_cons_of_neg _ hc] at hf
      by_cases hext : (subtitle_extensions.any fun ext => pyEndsWith (pyLower file) ext) = true
      · have hpre : ¬ pyStartsWith (pySplitext file).1 (pySplitext (pyBasename video_path)).1 = true := by
          intro hp
          exact hc (by simp [isCandidate, hext, hp])
        simpa [findSubtitleLoop, hext, hpre] using ih hf
      · simpa [findSubtitleLoop, hext] using ih hf

/-- Witness for the amended C1: with `movie.ara.srt` listed first, the
Matcher returns it, with language `ar`. -/
theorem matcher_first_candidate_witness :
    find_subtitle_for_video "/media/movie.mkv" ["movie.ara.srt", "movie.en.srt"] =
      some { path := pyJoin (pyDirname "/media/movie.mkv") "movie.ara.srt",
             language := candidateLang "movie.ara.srt" } :=
  matcher_first_candidate "/media/movie.mkv" ["movie.ara.srt", "movie.en.srt"]
    "movie.ara.srt" (by decide)

/-- Claim C10: whenever the Matcher returns a match, its language is one of
`ar`, `en` or `unknown`; `ara` and `eng` are unreachable because any name
containing `.ara` contains `.ar`, any name containing `.eng` contains `.en`,
and the shorter patterns are checked first. -/
theorem matcher_language_range (video_path : String) (listing : List String)
    (m : SubtitleMatch) (h : find_subtitle_for_video video_path listing = some m) :
    m.language = "ar" ∨ m.language = "en" ∨ m.language = "unknown" :=
  findSubtitleLoop_language _ _ listing m h

/-- Witness for C10 at a concrete listing. -/
theorem matcher_language_range_witness :
    ({ path := "/media/movie.ara.srt", language := "ar" } : SubtitleMatch).language = "ar" ∨
    ({ path := "/media/movie.ara.srt", language := "ar" } : SubtitleMatch).language = "en" ∨
    ({ path := "/media/movie.ara.srt", language := "ar" } : SubtitleMatch).language = "unknown" :=
  matcher_language_range "/media/movie.mkv" ["movie.ara.srt"]
    { path := "/media/movie.ara.srt", language := "ar" } (by decide)

/-! ## Lemmas about the store -/

/-- Updating the first record a filter matches keeps it findable, now with the
update applied, provided the update preserves the filter. -/
theorem find?_updateFirst {α : Type} (p : α → Bool) (f : α → α) (l : List α) (a : α)
    (hpf : ∀ x, p x = true → p (f x) = true)
    (h : l.find? p = some a) : (updateFirst p f l).find? p = some (f a) := by
  induction l with
  | nil => simp [List.find?] at h
  | cons x xs ih =>
    by_cases hx : p x = true
    · rw [ List.find?_cons_of_pos _ hx] at h
      injection h with h
      subst h
      simp only [updateFirst, hx, if_true]
      exact List.find?_cons_of_pos _ (hpf x hx)
    · rw [ List.find?_cons_of_neg _ hx] at h
      simp only [updateFirst, hx, if_false, Bool.false_eq_true]
      rw [ List.find?_cons_of_neg _ hx]
      exact ih h

/-- Applying a `$set` document never changes a job's identifier. -/
theorem applyJobSet_id (u : JobSet) (j : ProcessingJob) : (applyJobSet u j).id = j.id := rfl

/-- Applying a `$set` document never changes a job's owning video. -/
theorem applyJobSet_video_file_id (u : JobSet) (j : ProcessingJob) :
    (applyJobSet u j).video_file_id = j.video_file_id := rfl

/-- A findable job stays findable across `update_one`, with the `$set`
applied. -/
theorem findJob_updateJob (s : Store) (jid : Nat) (u : JobSet) (j : ProcessingJob)
    (h : s.findJob jid = some j) :
    (s.updateJob jid u).findJob jid = some (applyJobSet u j) := by
  unfold Store.findJob Store.updateJob
  exact find?_updateFirst _ _ _ _ (fun x hx => by simpa [applyJobSet_id] using hx) h

/-- Job updates leave the video-file collection untouched. -/
theorem video_files_updateJob (s : Store) (jid : Nat) (u : JobSet) :
    (s.updateJob jid u).video_files = s.video_files := rfl

/-! ## Claim theorems: the encoder invoker -/

/-- Claim C2: on a zero exit code, `embed_subtitles` issues its store updates
strictly in the order — job to `processing` with progress 10 and a start
timestamp, then progress 30, then job to `completed` with progress 100 and a
completion timestamp, then the owning VideoFile's status to `completed`. -/
theorem embed_success_update_order (iv isub op : String) (jid : Nat) (oc : EmbedOutcome)
    (t1 t2 : Nat) (s : Store) (j : ProcessingJob)
    (hrc : oc.returncode = 0) (hj : s.findJob jid = some j) :
    (embed_subtitles iv isub op jid oc t1 t2 s).trace =
      [StoreOp.jobUpdate jid { status := some "processing", started_at := some t1, progress := some 10 },
       StoreOp.jobUpdate jid { progress := some 30 },
       StoreOp.jobUpdate jid { status := some "completed", progress := some 100, completed_at := some t2 },
       StoreOp.videoStatusUpdate j.video_file_id "completed"] := by
  have h1 := findJob_updateJob s jid (jobStartSet t1) j hj
  have h2 := findJob_updateJob _ jid jobMidSet _ h1
  have h3 := findJob_updateJob _ jid (jobDoneSet t2) _ h2
  simp only [embed_subtitles, hrc]
  rw [h3]
  simp [jobStartSet, jobMidSet, jobDoneSet, applyJobSet]

/-- Claim C3: on a nonzero exit code, `embed_subtitles` sets the job to
`failed` with a non-empty error message — the decoded stderr, or the fixed
fallback `Unknown error` when stderr is empty — and a completion timestamp,
and writes nothing to any VideoFile record. -/
theorem embed_failure_frame (iv isub op : String) (jid : Nat) (oc : EmbedOutcome)
    (t1 t2 : Nat) (s : Store) (j : ProcessingJob)
    (hrc : ¬ oc.returncode = 0) (hj : s.findJob jid = some j) :
    (embed_subtitles iv isub op jid oc t1 t2 s).store.video_files = s.video_files ∧
    ∃ msg, msg = (if oc.stderrText = "" then "Unknown error" else oc.stderrText) ∧
      ¬ msg = "" ∧
      (embed_subtitles iv isub op jid oc t1 t2 s).store.findJob jid =
        some { j with status := "failed", progress := 30, started_at := some t1,
                      error_message := some msg, completed_at := some t2 } := by
  have h1 := findJob_updateJob s jid (jobStartSet t1) j hj
  have h2 := findJob_updateJob _ jid jobMidSet _ h1
  have hrcb : (oc.returncode == 0) = false := by
    simpa using hrc
  constructor
  · simp only [embed_subtitles, hrcb, Bool.false_eq_true, if_false]
    simp [video_files_updateJob]
  · refine ⟨if oc.stderrText = "" then "Unknown error" else oc.stderrText, rfl, ?_, ?_⟩
    · by_cases he : oc.stderrText = ""
      · simp [he]
      · simp only [if_neg he]
        exact he
    · have hmsg : (if oc.stderrText == "" then "Unknown error" else oc.stderrText) =
          (if oc.stderrText = "" then "Unknown error" else oc.stderrText) := by
        by_cases he : oc.stderrText = "" <;> simp [he]
      have h3 := findJob_updateJob _ jid
        (jobFailSet (if oc.stderrText == "" then "Unknown error" else oc.stderrText) t2) _ h2
      simp only [embed_subtitles, hrcb, Bool.false_eq_true, if_false]
      rw [h3, hmsg]
      simp [jobStartSet, jobMidSet, jobFailSet, applyJobSet]

/-- Claim C5: the constructed encoder command is exactly
`ffmpeg -y -i <video> -i <subtitle> -c copy -c:s srt -map 0 -map 1 <output>`:
overwrite-if-exists, the two inputs video-then-subtitle, stream copy without
re-encoding, subtitle codec forced to srt, all first-input streams mapped
plus the second (subtitle) input's stream, and the single derived output path
as the one trailing operand. -/
theorem ffmpeg_command_contract (iv isub op : String) (jid : Nat) (oc : EmbedOutcome)
    (t1 t2 : Nat) (s : Store) :
    (embed_subtitles iv isub op jid oc t1 t2 s).cmd =
      ["ffmpeg", "-y", "-i", iv, "-i", isub, "-c", "copy", "-c:s", "srt",
       "-map", "0", "-map", "1", op] := by
  simp only [embed_subtitles]
  by_cases hrc : (oc.returncode == 0) = true
  · simp only [hrc, if_true]
    cases hfj : (((s.updateJob jid (jobStartSet t1)).updateJob jid jobMidSet).updateJob
        jid (jobDoneSet t2)).findJob jid with
    | none => simp [hfj, ffmpegCmd]
    | some job_data => simp [hfj, ffmpegCmd]
  · simp [hrc, ffmpegCmd]

/-! ## Claim theorems: job creation -/

/-- Claim C4: requesting a job for a VideoFile with no subtitle path fails
with the no-subtitle condition and leaves the store exactly as it was — no
ProcessingJob is inserted and the VideoFile is unchanged. -/
theorem process_video_no_subtitle (vid : Nat) (settings : Option Settings)
    (njid now : Nat) (s : Store) (v : VideoFile)
    (hv : s.findVideo vid = some v) (hsub : v.subtitle_path = none) :
    process_video vid settings njid now s = (s, Except.error ApiError.noSubtitleAvailable) := by
  simp only [process_video, hv]
  simp [pyTruthyOptStr, hsub]

/-- Claim C6: on a successful creation, the inserted job's output path is the
input's base name, a dot, the subtitle language, and the input's extension,
joined under the output directory configured for the video's content
category. -/
theorem process_video_output_path (vid : Nat) (st : Settings) (njid now : Nat)
    (s : Store) (v : VideoFile)
    (hv : s.findVideo vid = some v)
    (hsub : pyTruthyOptStr v.subtitle_path = true)
    (hbase : ¬ (if v.content_type == "movies" then st.movies_output_path
                else st.tvshows_output_path) = "") :
    (process_video vid (some st) njid now s).1.processing_jobs =
      s.processing_jobs ++
        [{ id := njid
           video_file_id := vid
           input_video_path := v.file_path
           input_subtitle_path := v.subtitle_path.getD ""
           output_path := pyJoin
             (if v.content_type == "movies" then st.movies_output_path
              else st.tvshows_output_path)
             ((pySplitext v.file_name).1 ++ "." ++ (v.subtitle_language.getD "None") ++
               (pySplitext v.file_name).2)
           created_at := now }] ∧
    (process_video vid (some st) njid now s).2 = Except.ok njid := by
  have hbaseb : ((if v.content_type == "movies" then st.movies_output_path
      else st.tvshows_output_path) == "") = false := by
    simpa using hbase
  simp only [process_video, hv, hsub, Bool.not_true, Bool.false_eq_true, if_false, hbaseb,
    Store.updateVideoStatus]
  exact ⟨trivial, trivial⟩

/-- Witness for C6, pinning the concrete derivation of the spec: input
`show.mkv`, category `tvshows`, language `eng`, output base `/out` yield
`/out/show.eng.mkv`. -/
theorem process_video_output_path_witness :
    ((process_video 7 (some { tvshows_output_path := "/out" }) 1 0
        { video_files := [{ id := 7, file_path := "/tv/show.mkv", file_name := "show.mkv",
                            file_size := 9, subtitle_path := some "/tv/show.eng.srt",
                            subtitle_language := some "eng", content_type := "tvshows" }],
          processing_jobs := [] }).1.processing_jobs =
      [] ++
        [{ id := 1
           video_file_id := 7
           input_video_path := "/tv/show.mkv"
           input_subtitle_path := (some "/tv/show.eng.srt" : Option String).getD ""
           output_path := pyJoin
             (if ("tvshows" == "movies") = true then "" else "/out")
             ((pySplitext "show.mkv").1 ++ "." ++ ((some "eng" : Option String).getD "None") ++
               (pySplitext "show.mkv").2)
           created_at := 0 }] ∧
      (process_video 7 (some { tvshows_output_path := "/out" }) 1 0
        { video_files := [{ id := 7, file_path := "/tv/show.mkv", file_name := "show.mkv",
                            file_size := 9, subtitle_path := some "/tv/show.eng.srt",
                            subtitle_language := some "eng", content_type := "tvshows" }],
          processing_jobs := [] }).2 = Except.ok 1) ∧
    pyJoin (if ("tvshows" == "movies") = true then "" else "/out")
        ((pySplitext "show.mkv").1 ++ "." ++ ((some "eng" : Option String).getD "None") ++
          (pySplitext "show.mkv").2) = "/out/show.eng.mkv" :=
  And.intro
    (process_video_output_path 7 { tvshows_output_path := "/out" } 1 0
      { video_files := [{ id := 7, file_path := "/tv/show.mkv", file_name := "show.mkv",
                          file_size := 9, subtitle_path := some "/tv/show.eng.srt",
                          subtitle_language := some "eng", content_type := "tvshows" }],
        processing_jobs := [] }
      { id := 7, file_path := "/tv/show.mkv", file_name := "show.mkv",
        file_size := 9, subtitle_path := some "/tv/show.eng.srt",
        subtitle_language := some "eng", content_type := "tvshows" }
      (by decide) (by decide) (by decide))
    (by decide)

/-! ## Concrete records for the witnesses -/

/-- A queued job owned by video 7, as `process_video` would create it. -/
def demoJob : ProcessingJob :=
  { id := 1, video_file_id := 7, input_video_path := "/in/a.mkv",
    input_subtitle_path := "/in/a.ar.srt", output_path := "/out/a.ar.mkv" }

/-- A video with a matched subtitle, mid-processing. -/
def demoVideo : VideoFile :=
  { id := 7, file_path := "/in/a.mkv", file_name := "a.mkv", file_size := 5,
    subtitle_path := some "/in/a.ar.srt", subtitle_language := some "ar",
    content_type := "movies", status := "processing" }

/-- A scanned video with no matched subtitle. -/
def demoVideoNoSub : VideoFile :=
  { id := 8, file_path := "/in/b.mkv", file_name := "b.mkv", file_size := 6,
    content_type := "movies" }

/-- A store holding the two demo videos and the demo job. -/
def demoStore : Store :=
  { video_files := [demoVideo, demoVideoNoSub], processing_jobs := [demoJob] }

/-- The outcome of a failed encoder run. -/
def demoOutcomeFail : EmbedOutcome := { returncode := 1, stderrText := "boom" }

/-- Witness for C2 at a concrete store and job. -/
theorem embed_success_update_order_witness :
    (embed_subtitles "/in/a.mkv" "/in/a.ar.srt" "/out/a.ar.mkv" 1
        { returncode := 0, stderrText := "" } 10 20 demoStore).trace =
      [StoreOp.jobUpdate 1 { status := some "processing", started_at := some 10, progress := some 10 },
       StoreOp.jobUpdate 1 { progress := some 30 },
       StoreOp.jobUpdate 1 { status := some "completed", progress := some 100, completed_at := some 20 },
       StoreOp.videoStatusUpdate demoJob.video_file_id "completed"] :=
  embed_success_update_order "/in/a.mkv" "/in/a.ar.srt" "/out/a.ar.mkv" 1
    { returncode := 0, stderrText := "" } 10 20 demoStore demoJob rfl (by decide)

/-- Witness for C3 at a concrete store and job. -/
theorem embed_failure_frame_witness :
    (embed_subtitles "/in/a.mkv" "/in/a.ar.srt" "/out/a.ar.mkv" 1
        demoOutcomeFail 10 20 demoStore).store.video_files = demoStore.video_files ∧
    ∃ msg, msg = (if demoOutcomeFail.stderrText = "" then "Unknown error"
                  else demoOutcomeFail.stderrText) ∧
      ¬ msg = "" ∧
      (embed_subtitles "/in/a.mkv" "/in/a.ar.srt" "/out/a.ar.mkv" 1
          demoOutcomeFail 10 20 demoStore).store.findJob 1 =
        some { demoJob with status := "failed", progress := 30, started_at := some 10,
                            error_message := some msg, completed_at := some 20 } :=
  embed_failure_frame "/in/a.mkv" "/in/a.ar.srt" "/out/a.ar.mkv" 1
    demoOutcomeFail 10 20 demoStore demoJob (by decide) (by decide)

/-- Witness for C4: the no-subtitle video 8 is refused and the store is
returned unchanged. -/
theorem process_video_no_subtitle_witness :
    process_video 8 (some {}) 2 0 demoStore =
      (demoStore, Except.error ApiError.noSubtitleAvailable) :=
  process_video_no_subtitle 8 (some {}) 2 0 demoStore demoVideoNoSub (by decide) rfl

/-! ## Scanner lemmas -/

mutual
/-- A file is among a tree's files exactly when the walk visits its directory
and lists it there. -/
theorem mem_allFiles_iff_walk (r n : String) (sz : Nat) :
    ∀ (d : String) (t : FsTree),
      ((r, n, sz) ∈ FsTree.allFiles d t ↔
        ∃ ds fs, (r, ds, fs) ∈ FsTree.walk d t ∧ (n, sz) ∈ fs)
  | d, .node files subdirs => by
    constructor
    · intro hm
      rw [FsTree.allFiles] at hm
      rcases List.mem_append.mp hm with hm | hm
      · rcases List.mem_map.mp hm with ⟨fe, hfe, heq⟩
        injection heq with h1 h23
        injection h23 with h2 h3
        subst h1
        subst h2
        subst h3
        refine ⟨FsForest.names subdirs, files, ?_, ?_⟩
        · rw [FsTree.walk]; exact List.mem_cons_self _ _
        · simpa [Prod.mk.eta] using hfe
      · rcases (mem_allFilesF_iff_walkAll r n sz d subdirs).mp hm with ⟨ds, fs, hw, hf⟩
        refine ⟨ds, fs, ?_, hf⟩
        rw [FsTree.walk]
        exact List.mem_cons_of_mem _ hw
    · rintro ⟨ds, fs, hw, hf⟩
      rw [FsTree.walk] at hw
      rw [FsTree.allFiles]
      rcases List.mem_cons.mp hw with hw | hw
      · injection hw with h1 h23
        injection h23 with h2 h3
        subst h1
        subst h3
        refine List.mem_append.mpr (Or.inl ?_)
        exact List.mem_map.mpr ⟨(n, sz), hf, rfl⟩
      · refine List.mem_append.mpr (Or.inr ?_)
        exact (mem_allFilesF_iff_walkAll r n sz d subdirs).mpr ⟨ds, fs, hw, hf⟩

/-- Forest version of `mem_allFiles_iff_walk`. -/
theorem mem_allFilesF_iff_walkAll (r n : String) (sz : Nat) :
    ∀ (d : String) (f : FsForest),
      ((r, n, sz) ∈ FsForest.allFilesF d f ↔
        ∃ ds fs, (r, ds, fs) ∈ FsForest.walkAll d f ∧ (n, sz) ∈ fs)
  | d, .nil => by simp [FsForest.allFilesF, FsForest.walkAll]
  | d, .cons name t rest => by
    constructor
    · intro hm
      rw [FsForest.allFilesF] at hm
      rcases List.mem_append.mp hm with hm | hm
      · rcases (mem_allFiles_iff_walk r n sz (pyJoin d name) t).mp hm with ⟨ds, fs, hw, hf⟩
        refine ⟨ds, fs, ?_, hf⟩
        rw [FsForest.walkAll]
        exact List.mem_append.mpr (Or.inl hw)
      · rcases (mem_allFilesF_iff_walkAll r n sz d rest).mp hm with ⟨ds, fs, hw, hf⟩
        refine ⟨ds, fs, ?_, hf⟩
        rw [FsForest.walkAll]
        exact List.mem_append.mpr (Or.inr hw)
    · rintro ⟨ds, fs, hw, hf⟩
      rw [FsForest.walkAll] at hw
      rw [FsForest.allFilesF]
      rcases List.mem_append.mp hw with hw | hw
      · exact List.mem_append.mpr
          (Or.inl ((mem_allFiles_iff_walk r n sz (pyJoin d name) t).mpr ⟨ds, fs, hw, hf⟩))
      · exact List.mem_append.mpr
          (Or.inr ((mem_allFilesF_iff_walkAll r n sz d rest).mpr ⟨ds, fs, hw, hf⟩))
end

/-- For the default video extensions, the code's recognition test is the
case-insensitive suffix test of the spec. -/
theorem hasVideoExt_eq_endsWithCI (nm : String) :
    (video_extensions.any fun ext => endsWithCI nm ext) = hasVideoExt video_extensions nm := by
  have h1 : pyLower ".mp4" = ".mp4" := by decide
  have h2 : pyLower ".mkv" = ".mkv" := by decide
  have h3 : pyLower ".ts" = ".ts" := by decide
  simp [video_extensions, endsWithCI, hasVideoExt, h1, h2, h3]

/-! ## Claim theorems: the Scanner -/

/-- Claim C7: the scan of an existing tree returns exactly the files — at
every nesting depth — whose names end case-insensitively in a recognized
video extension, each carried as (path, name, size, containing directory);
nothing unrecognized is included and nothing recognized is omitted. -/
theorem scanner_returns_exactly (t : FsTree) (d : String) (e : FileEntry) :
    e ∈ find_video_files (some t) d video_extensions ↔
      ∃ r n sz, (r, n, sz) ∈ FsTree.allFiles d t ∧
        (video_extensions.any fun ext => endsWithCI n ext) = true ∧
        e = ⟨pyJoin r n, n, sz, r⟩ := by
  constructor
  · intro hm
    simp only [find_video_files] at hm
    rcases List.mem_flatMap.mp hm with ⟨entry, hentry, he⟩
    rcases List.mem_filterMap.mp he with ⟨fe, hfe, heq⟩
    by_cases hx : hasVideoExt video_extensions fe.1 = true
    · rw [if_pos hx] at heq
      injection heq with heq
      refine ⟨entry.1, fe.1, fe.2, ?_, ?_, heq.symm⟩
      · refine (mem_allFiles_iff_walk entry.1 fe.1 fe.2 d t).mpr
          ⟨entry.2.1, entry.2.2, ?_, ?_⟩
        · simpa [Prod.mk.eta] using hentry
        · simpa [Prod.mk.eta] using hfe
      · rw [hasVideoExt_eq_endsWithCI]
        exact hx
    · rw [if_neg hx] at heq
      simp at heq
  · rintro ⟨r, n, sz, hmem, hext, he⟩
    subst he
    rw [hasVideoExt_eq_endsWithCI] at hext
    rcases (mem_allFiles_iff_walk r n sz d t).mp hmem with ⟨ds, fs, hw, hf⟩
    simp only [find_video_files]
    refine List.mem_flatMap.mpr ⟨(r, ds, fs), hw, ?_⟩
    refine List.mem_filterMap.mpr ⟨(n, sz), hf, ?_⟩
    rw [if_pos hext]

/-! ## Scan-loop lemmas -/

/-- The identifier a scanned record carries is the counter value it was built
with. -/
theorem scanRecord_id (root : Option FsTree) (sp ct : String) (vid now : Nat)
    (vd : FileEntry) : (scanRecord root sp ct vid now vd).id = vid := rfl

/-- The insertion loop appends exactly one record per discovered video,
drawing consecutive fresh identifiers from the counter. -/
theorem scanLoop_ids (root : Option FsTree) (sp ct : String) (now : Nat) :
    ∀ (l : List FileEntry) (vid : Nat) (acc : List VideoFile),
      (scanLoop root sp ct now l vid acc).1.map (fun v => v.id) =
        acc.map (fun v => v.id) ++ List.range' vid l.length ∧
      (scanLoop root sp ct now l vid acc).2 = vid + l.length := by
  intro l
  induction l with
  | nil =>
    intro vid acc
    simp [scanLoop, List.range']
  | cons x xs ih =>
    intro vid acc
    have h := ih (vid + 1) (acc ++ [scanRecord root sp ct vid now x])
    rw [scanLoop]
    refine ⟨?_, ?_⟩
    · rw [h.1]
      simp [scanRecord_id, List.length_cons, List.range'_succ]
    · rw [h.2]
      simp only [List.length_cons]
      omega

/-- A successful `scan_folders` call runs the insertion loop over the
discovered videos of the selected category's source tree. -/
theorem scan_folders_inserts (st : Settings) (ct srcp : String)
    (fs : String → Option FsTree) (firstId now : Nat) (s : Store)
    (hct : (ct = "movies" ∧ srcp = st.movies_source_path) ∨
           (ct = "tvshows" ∧ srcp = st.tvshows_source_path))
    (hsrc : ¬ srcp = "") :
    scan_folders (some st) ct fs firstId now s =
      ⟨{ s with video_files := (scanLoop (fs srcp) srcp ct now
            (find_video_files (fs srcp) srcp video_extensions) firstId s.video_files).1 },
        (scanLoop (fs srcp) srcp ct now
            (find_video_files (fs srcp) srcp video_extensions) firstId s.video_files).2,
        Except.ok (find_video_files (fs srcp) srcp video_extensions).length⟩ := by
  rcases hct with ⟨h1, h2⟩ | ⟨h1, h2⟩ <;> subst h1 <;> subst h2 <;>
    simp [scan_folders, scanWithSource, hsrc]

/-! ## Claim theorems: rescan accumulation -/

/-- Claim C8: the scan never updates an existing VideoFile record — each scan
of an unchanged tree with `k` recognized files appends `k` new records with
fresh consecutive identifiers, so after `n` scans the store holds the
original records plus `n * k` new ones. -/
theorem scan_rescan_accumulates (st : Settings) (ct srcp : String)
    (fs : String → Option FsTree) (now n : Nat) (s : Store) (firstId : Nat)
    (hct : (ct = "movies" ∧ srcp = st.movies_source_path) ∨
           (ct = "tvshows" ∧ srcp = st.tvshows_source_path))
    (hsrc : ¬ srcp = "") :
    (scanTimes (some st) ct fs now n s firstId).1.video_files.map (fun v => v.id) =
      s.video_files.map (fun v => v.id) ++
        List.range' firstId (n * (find_video_files (fs srcp) srcp video_extensions).length) ∧
    (scanTimes (some st) ct fs now n s firstId).2 =
      firstId + n * (find_video_files (fs srcp) srcp video_extensions).length := by
  induction n generalizing s firstId with
  | zero => simp [scanTimes, List.range']
  | succ n ih =>
    simp only [scanTimes]
    rw [scan_folders_inserts st ct srcp fs firstId now s hct hsrc]
    have hloop := scanLoop_ids (fs srcp) srcp ct now
      (find_video_files (fs srcp) srcp video_extensions) firstId s.video_files
    have hrec := ih { s with video_files := (scanLoop (fs srcp) srcp ct now
        (find_video_files (fs srcp) srcp video_extensions) firstId s.video_files).1 }
      ((scanLoop (fs srcp) srcp ct now
        (find_video_files (fs srcp) srcp video_extensions) firstId s.video_files).2)
    have hmul : (n + 1) * (find_video_files (fs srcp) srcp video_extensions).length =
        n * (find_video_files (fs srcp) srcp video_extensions).length +
          (find_video_files (fs srcp) srcp video_extensions).length := by ring
    refine ⟨?_, ?_⟩
    · rw [hrec.1]
      simp only [hloop.1, hloop.2]
      rw [List.append_assoc]
      have hr := List.range'_append firstId
        (find_video_files (fs srcp) srcp video_extensions).length
        (n * (find_video_files (fs srcp) srcp video_extensions).length) 1
      rw [one_mul] at hr
      rw [hr, hmul]
    · rw [hrec.2, hloop.2, hmul]
      omega

/-! ## Invariant-preservation lemmas -/

/-- Pointwise preservation of a predicate across `updateFirst`. -/
theorem updateFirst_pres {α : Type} (P : α → Prop) (p : α → Bool) (f : α → α)
    (hf : ∀ x, P x → P (f x)) :
    ∀ l : List α, (∀ x ∈ l, P x) → ∀ x ∈ updateFirst p f l, P x := by
  intro l
  induction l with
  | nil =>
    intro _ x hx
    simp [updateFirst] at hx
  | cons y ys ih =>
    intro hall x hx
    rw [updateFirst] at hx
    by_cases hy : p y = true
    · rw [if_pos hy] at hx
      rcases List.mem_cons.mp hx with rfl | hx
      · exact hf y (hall y (List.mem_cons_self _ _))
      · exact hall x (List.mem_cons_of_mem _ hx)
    · rw [if_neg hy] at hx
      rcases List.mem_cons.mp hx with rfl | hx
      · exact hall x (List.mem_cons_self _ _)
      · exact ih (fun z hz => hall z (List.mem_cons_of_mem _ hz)) x hx

/-- Every record built by one iteration of the scan loop satisfies the
subtitle-fields invariant: both fields come from the same matcher result. -/
theorem scanRecord_subtitleInv (root : Option FsTree) (sp ct : String) (vid now : Nat)
    (vd : FileEntry) : subtitleInv (scanRecord root sp ct vid now vd) := by
  simp only [subtitleInv, scanRecord]
  cases find_subtitle_for_video vd.file_path (dirListing root sp (pyDirname vd.file_path)) <;>
    rfl

/-- The insertion loop preserves the subtitle-fields invariant of the whole
collection. -/
theorem scanLoop_subtitleInv (root : Option FsTree) (sp ct : String) (now : Nat) :
    ∀ (l : List FileEntry) (vid : Nat) (acc : List VideoFile),
      (∀ v ∈ acc, subtitleInv v) →
      ∀ v ∈ (scanLoop root sp ct now l vid acc).1, subtitleInv v := by
  intro l
  induction l with
  | nil =>
    intro vid acc h
    simpa [scanLoop] using h
  | cons x xs ih =>
    intro vid acc h
    rw [scanLoop]
    refine ih (vid + 1) _ ?_
    intro v hv
    rcases List.mem_append.mp hv with hv | hv
    · exact h v hv
    · have := List.mem_singleton.mp hv
      subst this
      exact scanRecord_subtitleInv root sp ct vid now x

/-- Status-only rewrites preserve the subtitle-fields invariant. -/
theorem updateVideoStatus_subtitleInv (s : Store) (videoId : Nat) (st : String)
    (h : ∀ v ∈ s.video_files, subtitleInv v) :
    ∀ v ∈ (s.updateVideoStatus videoId st).video_files, subtitleInv v := by
  simp only [Store.updateVideoStatus]
  exact updateFirst_pres subtitleInv (fun v => v.id == videoId)
    (fun v => { v with status := st }) (fun x hx => hx) s.video_files h

/-! ## Claim theorems: the subtitle-fields invariant -/

/-- Claim C9: a scan only creates records whose `subtitle_path` and
`subtitle_language` are set together (both from a match, both absent
otherwise), and the other core operations — job creation and the encoder
invoker — never write either field, so the invariant is preserved by each of
them. -/
theorem subtitle_fields_invariant
    (settings : Option Settings) (ct : String) (fs : String → Option FsTree)
    (firstId now vid njid jid t1 t2 : Nat) (iv isub op : String) (oc : EmbedOutcome)
    (s : Store) (hs : ∀ v ∈ s.video_files, subtitleInv v) :
    (∀ v ∈ (scan_folders settings ct fs firstId now s).store.video_files, subtitleInv v) ∧
    (∀ v ∈ (process_video vid settings njid now s).1.video_files, subtitleInv v) ∧
    (∀ v ∈ (embed_subtitles iv isub op jid oc t1 t2 s).store.video_files, subtitleInv v) := by
  refine ⟨?_, ?_, ?_⟩
  · cases settings with
    | none => simpa [scan_folders] using hs
    | some st =>
      have hbody : ∀ sp : String,
          ∀ v ∈ (scanWithSource sp ct fs firstId now s).store.video_files, subtitleInv v := by
        intro sp
        by_cases hsp : (sp == "") = true
        · simpa [scanWithSource, hsp] using hs
        · simp only [scanWithSource, hsp, Bool.false_eq_true, if_false]
          exact scanLoop_subtitleInv _ _ _ _ _ _ _ hs
      simp only [scan_folders]
      by_cases h1 : (ct == "movies") = true
      · simpa [h1] using hbody st.movies_source_path
      · by_cases h2 : (ct == "tvshows") = true
        · simpa [h1, h2] using hbody st.tvshows_source_path
        · simpa [h1, h2] using hs
  · cases hv : s.findVideo vid with
    | none => simpa [process_video, hv] using hs
    | some video_file =>
      by_cases hsub : pyTruthyOptStr video_file.subtitle_path = true
      · cases settings with
        | none => simpa [process_video, hv, hsub] using hs
        | some st =>
          by_cases hbase : ((if video_file.content_type == "movies"
              then st.movies_output_path else st.tvshows_output_path) == "") = true
          · simp only [process_video, hv, hsub, Bool.not_true, Bool.false_eq_true, if_false,
              hbase, if_true]
            exact hs
          · simp only [process_video, hv, hsub, Bool.not_true, Bool.false_eq_true, if_false,
              hbase, Store.updateVideoStatus]
            exact updateFirst_pres subtitleInv (fun v => v.id == vid)
              (fun v => { v with status := "processing" }) (fun x hx => hx) s.video_files hs
      · simpa [process_video, hv, hsub] using hs
  · by_cases hrc : (oc.returncode == 0) = true
    · simp only [embed_subtitles, hrc, if_true]
      cases hfj : (((s.updateJob jid (jobStartSet t1)).updateJob jid jobMidSet).updateJob
          jid (jobDoneSet t2)).findJob jid with
      | none => simpa [hfj, video_files_updateJob] using hs
      | some job_data =>
        simp only [hfj]
        refine updateVideoStatus_subtitleInv _ _ _ ?_
        simpa [video_files_updateJob] using hs
    · simpa [embed_subtitles, hrc, video_files_updateJob] using hs

/-! ## Witnesses for the scan claims -/

/-- A two-level tree: two recognized videos (one only via case-insensitive
matching), a subtitle sibling and an unrecognized file. -/
def demoTree : FsTree :=
  .node [("a.mkv", 5), ("a.ar.srt", 1), ("notes.txt", 2)]
    (.cons "sub" (.node [("b.MKV", 7)] .nil) .nil)

/-- Settings pointing the movies category at the demo tree. -/
def demoSettings : Settings :=
  { movies_source_path := "/in", movies_output_path := "/out" }

/-- Witness for C8: two scans of the demo tree (which holds two recognized
videos) append four records with identifiers 0..3. -/
theorem scan_rescan_accumulates_witness :
    (scanTimes (some demoSettings) "movies" (fun _ => some demoTree) 0 2
        { video_files := [], processing_jobs := [] } 0).1.video_files.map (fun v => v.id) =
      ({ video_files := [], processing_jobs := [] } : Store).video_files.map (fun v => v.id) ++
        List.range' 0
          (2 * (find_video_files ((fun _ => some demoTree) "/in") "/in" video_extensions).length) ∧
    (scanTimes (some demoSettings) "movies" (fun _ => some demoTree) 0 2
        { video_files := [], processing_jobs := [] } 0).2 =
      0 + 2 * (find_video_files ((fun _ => some demoTree) "/in") "/in" video_extensions).length :=
  scan_rescan_accumulates demoSettings "movies" "/in" (fun _ => some demoTree) 0 2
    { video_files := [], processing_jobs := [] } 0 (Or.inl ⟨rfl, rfl⟩) (by decide)

/-- Witness for C9 at concrete stores and inputs. -/
theorem subtitle_fields_invariant_witness :
    (∀ v ∈ (scan_folders (some demoSettings) "movies" (fun _ => some demoTree)
        10 0 demoStore).store.video_files, subtitleInv v) ∧
    (∀ v ∈ (process_video 7 (some demoSettings) 2 0 demoStore).1.video_files, subtitleInv v) ∧
    (∀ v ∈ (embed_subtitles "/in/a.mkv" "/in/a.ar.srt" "/out/a.ar.mkv" 1 demoOutcomeFail
        3 4 demoStore).store.video_files, subtitleInv v) :=
  subtitle_fields_invariant (some demoSettings) "movies" (fun _ => some demoTree)
    10 0 7 2 1 3 4 "/in/a.mkv" "/in/a.ar.srt" "/out/a.ar.mkv" demoOutcomeFail demoStore
    (by decide)

end Subflix
